import Mathlib

/-!
Shallow embedding of the offline-resilient identity, cache and feed-assembly
core of the feelings-sharing app (anonymous-auth module, offline sync queue,
and the data-access service), together with proofs checking the frozen
specification claims against it.

Conventions used throughout:
* JavaScript async functions that can throw are embedded as functions into
  `Except Err _`; a `try/catch` becomes a `match` on the attempted body.
* External effects (AsyncStorage reads/writes, Firestore calls, crypto,
  Firebase auth) are parametrized by environment records whose fields hold
  the outcome of each primitive, `Except`-valued when the primitive can throw.
* The runtime is single-threaded cooperative concurrency: code between two
  `await` suspension points runs atomically.  Interleaving-sensitive claims
  are modelled as explicit atomic segments over a shared state.
-/

namespace FeelsApp

/-- Failure kind for a throwing primitive (storage fault, remote/network
fault, auth fault, entropy fault).  The code never branches on the kind, so
one inductive suffices. -/
inductive Err where
  | storage
  | network
  | auth
  | crypto
  deriving DecidableEq, Repr

/-- Geographic feed tier tag, the values of the `locationPriority` field
attached by `getSmartLocationFeed`. -/
inductive Tier where
  | city
  | state
  | country
  | global
  deriving DecidableEq, Repr

/-- A post document as mapped from a Firestore snapshot in
`firebaseService.ts` (`id`, spread document data, millisecond timestamp). -/
structure Post where
  id : String
  userId : String
  text : String
  emotionTag : String
  timestamp : Nat
  likes : Int
  openForChat : Bool
  isDeleted : Bool
  locationPriority : Option Tier
  deriving DecidableEq, Repr

/-- A mood entry document (`moodEntries` collection). -/
structure MoodEntry where
  id : String
  userId : String
  mood : String
  intensity : Nat
  timestamp : Nat
  deriving DecidableEq, Repr

/-! ## Like state (`likePost` / `unlikePost`, firebaseService.ts 630-701)

State relevant to a single post and the current identity: whether the remote
like document `posts/<postId>/likes/<userId>` exists, the remote `likes`
counter of the post, and the locally cached liked-post id list
(`liked_posts` key). -/

structure LikeState where
  likeDoc : Bool
  likes : Int
  likedPosts : List String
  deriving DecidableEq, Repr

/-- `FirebaseService.cacheLike` (firebaseService.ts 1419-1429): append the
post id to the cached liked-posts list unless already present. -/
def cacheLike (likedPosts : List String) (postId : String) : List String :=
  if postId ∈ likedPosts then likedPosts else likedPosts ++ [postId]

/-- `FirebaseService.likePost` (firebaseService.ts 630-659) on the success
path of its remote primitives: if the like document already exists, only the
local mirror is updated; if the id is already in the local liked set, nothing
happens; otherwise a batch writes the like document and increments the
counter, then the local mirror is updated. -/
def likePost (postId : String) (st : LikeState) : LikeState :=
  if st.likeDoc then
    { st with likedPosts := cacheLike st.likedPosts postId }
  else if postId ∈ st.likedPosts then
    st
  else
    { likeDoc := true
      likes := st.likes + 1
      likedPosts := cacheLike st.likedPosts postId }

/-- Outcomes of the remote primitives `unlikePost` performs, in program
order: existence of the post document, the `deleteDoc` on the like document,
the `updateDoc` decrement, and the compensating `setDoc` that re-creates the
like document. -/
structure UnlikeEnv where
  postExists : Bool
  deleteOk : Bool
  decOk : Bool
  revertOk : Bool
  deriving DecidableEq, Repr

/-- `FirebaseService.unlikePost` (firebaseService.ts 661-701): returns early
when the like document or the post is absent; deletes the like document; on
decrement failure attempts to re-create the like document (that revert's own
failure is swallowed by an inner catch) and rethrows; on success removes the
id from the local mirror. -/
def unlikePost (postId : String) (env : UnlikeEnv) (st : LikeState) :
    Except Err Unit × LikeState :=
  if !st.likeDoc then
    (.ok (), st)
  else if !env.postExists then
    (.ok (), st)
  else if !env.deleteOk then
    (.error .network, st)
  else
    let st1 := { st with likeDoc := false }
    if env.decOk then
      let st2 := { st1 with likes := st1.likes - 1 }
      (.ok (), { st2 with likedPosts := st2.likedPosts.filter (· != postId) })
    else if env.revertOk then
      (.error .network, { st1 with likeDoc := true })
    else
      (.error .network, st1)

/-! ## Offline write queue of firebaseService.ts (`offline_queue` key)

`storeOfflinePost` / `storeOfflineMood` (firebaseService.ts 1441-1469) push a
record onto the queue; `syncOfflineData` (1163-1188) replays it. -/

/-- An operation stored on the `offline_queue` key. -/
inductive OfflineOp where
  | post (text : String) (emotionTag : String) (openForChat : Bool) (timestamp : Nat)
  | mood (mood : String) (intensity : Nat) (notes : Option String) (timestamp : Nat)
  deriving DecidableEq, Repr

/-- Environment of a `createPost` / `addMoodEntry` call: outcome of
`ensureAuthenticated`, the resolved identity, the remote `addDoc`, and the
storage write performed by `storeOfflinePost` / `storeOfflineMood` (whose own
failure is swallowed, leaving the queue unchanged). -/
structure WriteEnv where
  authOk : Except Err Unit
  uid : String
  addDocResult : Except Err String
  queueWriteOk : Except Err Unit
  deriving Repr

/-- `FirebaseService.createPost` (firebaseService.ts 457-499): attempt auth
and the remote write; on success update the caches (their failures are
swallowed) and return the new document id; on any failure store the
operation on the offline queue (`storeOfflinePost`, itself failure-swallowing)
and rethrow the error.  Returns the call result and the offline queue
contents afterwards. -/
def createPost (env : WriteEnv) (q : List OfflineOp)
    (text emotionTag : String) (openForChat : Bool) (now : Nat) :
    Except Err String × List OfflineOp :=
  let attempt : Except Err String := do
    let _ ← env.authOk
    env.addDocResult
  match attempt with
  | .ok docId => (.ok docId, q)
  | .error e =>
      match env.queueWriteOk with
      | .ok _ => (.error e, q ++ [.post text emotionTag openForChat now])
      | .error _ => (.error e, q)

/-- `FirebaseService.addMoodEntry` (firebaseService.ts 703-726): same shape
as `createPost`, queueing a mood operation on failure and rethrowing. -/
def addMoodEntry (env : WriteEnv) (q : List OfflineOp)
    (mood : String) (intensity : Nat) (notes : Option String) (now : Nat) :
    Except Err Unit × List OfflineOp :=
  let attempt : Except Err Unit := do
    let _ ← env.authOk
    let _ ← env.addDocResult
    pure ()
  match attempt with
  | .ok _ => (.ok (), q)
  | .error e =>
      match env.queueWriteOk with
      | .ok _ => (.error e, q ++ [.mood mood intensity notes now])
      | .error _ => (.error e, q)

/-- Result of a `syncOfflineData` run: the queue contents just before the
final `removeItem`, the persisted queue afterwards, and the operations
attempted (each exactly once, errors swallowed by `continue`). -/
structure OffSyncResult where
  preRemoveStorage : List OfflineOp
  storage : List OfflineOp
  attempted : List OfflineOp
  deriving DecidableEq, Repr

/-- `FirebaseService.syncOfflineData` (firebaseService.ts 1163-1188): read
the queue, replay each item once (a failed `createPost` / `addMoodEntry`
re-appends the operation to the stored queue via its own catch block before
rethrowing, and the rethrown error is swallowed by `continue`), then
unconditionally `AsyncStorage.removeItem('offline_queue')`. -/
def syncOfflineData (replayOk : OfflineOp → Bool) (q0 : List OfflineOp) :
    OffSyncResult :=
  let looped : OffSyncResult := q0.foldl
    (fun (st : OffSyncResult) op =>
      if replayOk op then
        { st with attempted := st.attempted ++ [op] }
      else
        { preRemoveStorage := st.preRemoveStorage ++ [op]
          storage := st.storage
          attempted := st.attempted ++ [op] })
    (OffSyncResult.mk q0 [] [])
  { looped with storage := [] }

/-! ## Anonymous identity module (unnamed module part_000) -/

/-- Outcomes of the primitives used by `ensureFirebaseAuth` (part_000 lines
126-158): `auth.currentUser`, the time-boxed `waitForAuthState` (which
resolves to null on timeout and never throws), and `signInAnonymously`.
Caching the Firebase uid afterwards swallows its own failure. -/
structure AuthEnv where
  currentUser : Option String
  waitedUser : Option String
  signInResult : Except Err String
  deriving Repr

/-- `ensureFirebaseAuth` (part_000 126-158): prefer an existing user, then a
user observed within the bounded wait, else sign in anonymously (whose
failure propagates). -/
def ensureFirebaseAuth (env : AuthEnv) : Except Err String :=
  match env.currentUser with
  | some u => .ok u
  | none =>
    match env.waitedUser with
    | some u => .ok u
    | none => env.signInResult

/-- Outcomes of the primitives used by `createPersistentUserId` (part_000
lines 71-124): the stored persistent id, the entropy source, the id+timestamp
persist, the stored generation timestamp, its backfill write, the remote-auth
session, the fallback-id store, and the clock/random inputs. -/
structure IdEnv where
  storedId : Except Err (Option String)
  uuid : Except Err String
  multiSetOk : Except Err Unit
  storedTimestamp : Except Err (Option String)
  setTimestampOk : Except Err Unit
  authEnv : AuthEnv
  storeFallbackOk : Except Err Unit
  now : Nat
  rnd : String
  deriving Repr

/-- `generateUUID` (part_000 19-27): `Crypto.randomUUID` with a
timestamp+random composite fallback on entropy failure; never throws. -/
def generateUUID (env : IdEnv) : String :=
  match env.uuid with
  | .ok u => u
  | .error _ => "anon_" ++ toString env.now ++ "_" ++ env.rnd

/-- `createPersistentUserId` (part_000 71-124): read the stored id; when
absent, mint `anon_<uuid>` and persist id and timestamp; when present,
backfill a missing generation timestamp; in both branches run
`ensureFirebaseAuth`; on any failure inside the try-block return the
`anon_fallback_...` composite identifier (the attempt to store it swallows
its own failure), so the caller always receives some identifier. -/
def createPersistentUserId (env : IdEnv) : Except Err String :=
  let attempt : Except Err String := do
    let stored ← env.storedId
    match stored with
    | none =>
        let pid := "anon_" ++ generateUUID env
        let _ ← env.multiSetOk
        let _ ← ensureFirebaseAuth env.authEnv
        pure pid
    | some pid =>
        let ts ← env.storedTimestamp
        match ts with
        | none => do
            let _ ← env.setTimestampOk
            let _ ← ensureFirebaseAuth env.authEnv
            pure pid
        | some _ => do
            let _ ← ensureFirebaseAuth env.authEnv
            pure pid
  match attempt with
  | .ok pid => .ok pid
  | .error _ => .ok ("anon_fallback_" ++ toString env.now ++ "_" ++ env.rnd)

/-- `getOrCreatePersistentUserId` (part_000 46-69) for one call with no
in-flight promise: return the memory-cached id when present, otherwise run
the full resolution. -/
def getOrCreatePersistentUserId (mem : Option String) (env : IdEnv) :
    Except Err String :=
  match mem with
  | some pid => .ok pid
  | none => createPersistentUserId env

/-- `getCurrentUserId` (part_000 190-209): return the memory-cached id when
initialized, otherwise resolve in full; its catch-all returns the
`anon_emergency_...` identifier instead of throwing. -/
def getCurrentUserId (mem : Option String) (isInitialized : Bool)
    (env : IdEnv) : Except Err String :=
  let attempt : Except Err String :=
    match mem, isInitialized with
    | some pid, true => .ok pid
    | _, _ => getOrCreatePersistentUserId mem env
  match attempt with
  | .ok pid => .ok pid
  | .error _ => .ok ("anon_emergency_" ++ toString env.now ++ "_" ++ env.rnd)

/-! ## Single-flight on `getOrCreatePersistentUserId` (part_000 46-69)

Module-level mutable state of part_000 relevant to concurrent callers, under
the single-threaded cooperative scheduler (spec section 5): everything a call
executes before its first `await` is atomic. -/

/-- `authPromise` (identified by a token), `currentPersistentUserId`, a
counter of identity-creation sequences started, and a fresh-token source. -/
structure AuthModuleState where
  authPromise : Option Nat
  currentPersistentUserId : Option String
  creations : Nat
  nextPromise : Nat
  deriving DecidableEq, Repr

/-- What one `getOrCreatePersistentUserId` call observes: it awaits the
shared promise with token `p`, or returns a memory-cached id immediately. -/
inductive CallRes where
  | joined (p : Nat)
  | immediate (s : String)
  deriving DecidableEq, Repr

/-- The synchronous prefix of `getOrCreatePersistentUserId` (part_000 48-59)
as one atomic step: the in-flight-promise check, the memory-cache check and,
on a miss, starting `createPersistentUserId` and publishing its promise all
run before the first suspension point. -/
def getOrCreateStep (st : AuthModuleState) : AuthModuleState × CallRes :=
  match st.authPromise with
  | some p => (st, .joined p)
  | none =>
    match st.currentPersistentUserId with
    | some s => (st, .immediate s)
    | none =>
        ({ st with
            authPromise := some st.nextPromise
            creations := st.creations + 1
            nextPromise := st.nextPromise + 1 },
         .joined st.nextPromise)

/-- `n` concurrent calls, each running its synchronous prefix before any
promise resolves. -/
def runCalls : Nat → AuthModuleState → AuthModuleState × List CallRes
  | 0, st => (st, [])
  | n + 1, st =>
    let s1 := getOrCreateStep st
    let s2 := runCalls n s1.1
    (s2.1, s1.2 :: s2.2)

/-- The identifier a call ends up with once the single in-flight creation
resolves with `v`. -/
def resolveRes (v : String) : CallRes → String
  | .joined _ => v
  | .immediate s => s

/-! ## Identity-switch handling (firebaseService.ts 61-77 and 1471-1489)

`getConsistentUserId` compares the stored `current_user_id_cache` against the
current identity and calls `clearAllCaches` on a mismatch; it overwrites the
stored key only afterwards.  `clearAllCaches` itself begins by calling
`getConsistentUserId`.  The embedding is fuel-indexed: a result of `none`
means the call performs `fuel` nested calls without finishing.  `cachedUid`
is the stored `current_user_id_cache` value, `currentUid` the (memory-cached,
hence constant) result of `getCurrentUserId`; storage primitives succeed. -/

mutual

/-- `FirebaseService.getConsistentUserId` (61-77).  Returns the storage
value of `current_user_id_cache` after the call together with the returned
identity, or `none` when the fuel runs out. -/
def getConsistentUserIdFuel : Nat → Option String → String →
    Option (Option String × String)
  | 0, _, _ => none
  | fuel + 1, cachedUid, currentUid =>
    match cachedUid with
    | some c =>
      if c = currentUid then
        some (some currentUid, currentUid)
      else
        match clearAllCachesFuel fuel cachedUid currentUid with
        | none => none
        | some _ => some (some currentUid, currentUid)
    | none => some (some currentUid, currentUid)

/-- `FirebaseService.clearAllCaches` (1471-1489): resolves the identity via
`getConsistentUserIdFuel`, then `multiRemove` clears the cache keys,
`current_user_id_cache` among them. -/
def clearAllCachesFuel : Nat → Option String → String → Option (Option String)
  | 0, _, _ => none
  | fuel + 1, cachedUid, currentUid =>
    match getConsistentUserIdFuel fuel cachedUid currentUid with
    | none => none
    | some _ => some none

end

/-! ## OfflineSyncService (unnamed module part_001): the `sync_queue` key -/

/-- `SyncItem.type` values. -/
inductive SyncType where
  | post
  | mood
  | like
  deriving DecidableEq, Repr

/-- A `SyncItem` of the `sync_queue` (part_001 lines 9-15): id, kind, opaque
payload, enqueue timestamp, and the retry counter. -/
structure SyncItem where
  id : String
  type : SyncType
  data : String
  timestamp : Nat
  retries : Nat
  deriving DecidableEq, Repr

/-- `OfflineSyncService.queueItem` (part_001 lines 58-81): append a fresh
item with `retries = 0` to the persisted queue. -/
def queueItem (q : List SyncItem) (id : String) (ty : SyncType) (data : String)
    (now : Nat) : List SyncItem :=
  q ++ [SyncItem.mk id ty data now 0]

/-- One iteration of the drain loop of `syncQueuedItems` (part_001 lines
103-118) on a single item: on success the item is marked processed; on
failure its `retries` counter is incremented in place and the item is marked
processed exactly when the counter has reached 3.  Returns the item as it
ends up in the (mutated) snapshot array together with its processed mark. -/
def stepItem (ok : SyncItem → Bool) (it : SyncItem) : SyncItem × Bool :=
  if ok it then
    (it, true)
  else
    let it' := { it with retries := it.retries + 1 }
    (it', decide (3 ≤ it'.retries))

/-- `OfflineSyncService.syncQueuedItems` (part_001 lines 83-131), one drain
pass over a snapshot `queue`: every item is attempted once in original
enqueue order, then the snapshot minus the processed ids is persisted as the
whole new queue.  `ok it` is the outcome of `processItem` for `it` in this
pass.  Returns (persisted remaining queue, processed ids). -/
def syncPass (ok : SyncItem → Bool) (queue : List SyncItem) :
    List SyncItem × List String :=
  let stepped : List (SyncItem × Bool) := queue.map (stepItem ok)
  let processed : List String := (stepped.filter (fun s => s.2)).map (fun s => s.1.id)
  let remaining : List SyncItem := (stepped.map (fun s => s.1)).filter
    (fun it => !(processed.contains it.id))
  (remaining, processed)

/-- The mid-drain interleaving of `queueItem` with `syncQueuedItems` under
the cooperative scheduler: the drain snapshots `q0`, a concurrent
`queueItem` completes while the drain is suspended in `processItem` (its
`setItem` persists `q0 ++ [b]`), and the drain's final `setItem` then
overwrites the key with the filtered snapshot.  Returns (storage right after
the enqueue's write, storage after the drain's final write). -/
def drainWithMidEnqueue (ok : SyncItem → Bool) (q0 : List SyncItem)
    (b : SyncItem) : List SyncItem × List SyncItem :=
  (q0 ++ [b], (syncPass ok q0).1)

/-! ## Read paths with a cache floor (firebaseService.ts 359-400, 591-628,
728-765 and the cache helpers 1305-1338, 1387-1395) -/

/-- Outcomes of the primitives of `getPosts`: the remote posts query and the
stored+parsed `offline_posts` cache. -/
structure PostsReadEnv where
  queryPosts : Except Err (List Post)
  cachedPostsRaw : Except Err (List Post)
  deriving Repr

/-- `getCachedPosts` (1305-1313): a storage or parse failure degrades to the
empty list. -/
def getCachedPosts (env : PostsReadEnv) : List Post :=
  match env.cachedPostsRaw with
  | .ok l => l
  | .error _ => []

/-- `getPosts` (359-400): query, drop deleted posts, cache the result (the
`cachePosts` write swallows its own failure); on query failure fall back to
the cached posts. -/
def getPosts (env : PostsReadEnv) : Except Err (List Post) :=
  match env.queryPosts with
  | .ok posts => .ok (posts.filter (fun p => !p.isDeleted))
  | .error _ => .ok (getCachedPosts env)

/-- Outcomes of the primitives of `getUserPosts` / `getCachedUserPosts`:
`ensureAuthenticated`, the resolved identity, the remote query, the
per-identity cache key (`user_posts_<uid>`), the general cache, and the
backfill write. -/
structure UserReadEnv where
  authOk : Except Err Unit
  uid : String
  queryUserPosts : Except Err (List Post)
  userKeyCache : Except Err (Option (List Post))
  generalCache : Except Err (List Post)
  backfillWriteOk : Except Err Unit
  deriving Repr

/-- `getCachedUserPosts` (1315-1338): prefer the per-identity key; otherwise
filter the general cache by the identity and, when the filtered list is
nonempty, backfill the dedicated key (a failing backfill write jumps to the
catch, which returns the empty list); every failure degrades to []. -/
def getCachedUserPosts (env : UserReadEnv) : List Post :=
  match env.userKeyCache with
  | .error _ => []
  | .ok (some posts) => posts
  | .ok none =>
    let gen := match env.generalCache with
      | .ok g => g
      | .error _ => []
    let filtered := gen.filter (fun p => p.userId == env.uid)
    if 0 < filtered.length then
      match env.backfillWriteOk with
      | .ok _ => filtered
      | .error _ => []
    else filtered

/-- `getUserPosts` (591-628): after auth, query the identity's posts and
drop deleted ones (the `cacheUserPosts` write swallows its own failure); on
query failure return the cached user posts; the outer catch also resolves to
the cached user posts. -/
def getUserPosts (env : UserReadEnv) : Except Err (List Post) :=
  match env.authOk with
  | .error _ => .ok (getCachedUserPosts env)
  | .ok _ =>
    match env.queryUserPosts with
    | .ok allPosts => .ok (allPosts.filter (fun p => !p.isDeleted))
    | .error _ => .ok (getCachedUserPosts env)

/-- Outcomes of the primitives of `getMoodEntries`: auth, the permission
probe (`limit(1)` test query), the main query, and the stored moods cache. -/
structure MoodReadEnv where
  authOk : Except Err Unit
  testQueryOk : Except Err Unit
  queryMoods : Except Err (List MoodEntry)
  cachedMoodsRaw : Except Err (List MoodEntry)
  deriving Repr

/-- `getCachedMoods` (1387-1395): failure degrades to the empty list. -/
def getCachedMoods (env : MoodReadEnv) : List MoodEntry :=
  match env.cachedMoodsRaw with
  | .ok l => l
  | .error _ => []

/-- `getMoodEntries` (728-765): a failing permission probe returns the
cached moods, a failing main query lands in the catch which also returns the
cached moods (the `cacheMoods` write swallows its own failure). -/
def getMoodEntries (env : MoodReadEnv) : Except Err (List MoodEntry) :=
  match env.authOk with
  | .error _ => .ok (getCachedMoods env)
  | .ok _ =>
    match env.testQueryOk with
    | .error _ => .ok (getCachedMoods env)
    | .ok _ =>
      match env.queryMoods with
      | .ok moods => .ok moods
      | .error _ => .ok (getCachedMoods env)

/-! ## FeedAssembler: `getSmartLocationFeed` (firebaseService.ts 199-331) -/

/-- Numeric tier priority of the final comparator (297-305); an untagged
post defaults to the global priority. -/
def prio (p : Post) : Nat :=
  match p.locationPriority with
  | some .city => 1
  | some .state => 2
  | some .country => 3
  | some .global => 4
  | none => 4

/-- The final sort comparator (297-312) as a Boolean total preorder: `a` may
precede `b` when `a`'s tier has strictly higher priority, or within one tier
when `a` is at least as recent (`timestamp` descending). -/
def feedLe (a b : Post) : Bool :=
  decide (prio a < prio b) || (prio a == prio b && decide (b.timestamp ≤ a.timestamp))

/-- One `forEach` push of a tier's sliced results (223-229, 245-251,
268-274, 286-292): append the post tagged with the tier unless its id was
already accepted, and record the id. -/
def pushPost (tag : Tier) (st : List Post × List String) (p : Post) :
    List Post × List String :=
  if p.id ∈ st.2 then st
  else (st.1 ++ [{ p with locationPriority := some tag }], st.2 ++ [p.id])

/-- A whole tier's `forEach` over its sliced query results. -/
def pushTier (tag : Tier) (st : List Post × List String) (posts : List Post) :
    List Post × List String :=
  posts.foldl (pushPost tag) st

/-- The client-side exclusion filter applied by `getPostsByLocation`
(188-190) and `getGlobalPosts` (350) to the raw server results. -/
def excludeFilter (excludeIds : List String) (posts : List Post) : List Post :=
  posts.filter (fun p => !(excludeIds.contains p.id))

/-- The four tier-accumulation stages of `getSmartLocationFeed` (212-295)
with a known location, as a function of the page size and of the four tier
queries' raw server results (the remote queries themselves are external;
their client-side exclusion filters, the `slice(0, target)` caps, and the
dedup pushes are modelled).  `Math.floor(pageSize * 0.6)`,
`Math.floor(pageSize * 0.25)` and `Math.floor(pageSize * 0.1)` are rendered
as natural floor division.  Returns the accumulated (posts, ids). -/
def assembleState (pageSize : Nat)
    (cityRaw stateRaw countryRaw globalRaw : List Post) :
    List Post × List String :=
  let cityTarget := pageSize * 6 / 10
  let st1 := pushTier .city ([], []) (cityRaw.take cityTarget)
  let stateTarget := pageSize * 25 / 100
  let st2 :=
    if 0 < stateTarget then
      pushTier .state st1 ((excludeFilter st1.2 stateRaw).take stateTarget)
    else st1
  let countryTarget := pageSize / 10
  let st3 :=
    if 0 < countryTarget ∧ st2.1.length < pageSize then
      pushTier .country st2 ((excludeFilter st2.2 countryRaw).take countryTarget)
    else st2
  if st3.1.length < pageSize then
    let globalNeeded := pageSize - st3.1.length
    pushTier .global st3
      (((excludeFilter st3.2 globalRaw).take (globalNeeded + 5)).take globalNeeded)
  else st3

/-- `getSmartLocationFeed` (199-331) with a known location: the accumulated
posts, sorted by the tier-priority-then-recency comparator (297-312; a
stable comparator sort, modelled by `mergeSort`). -/
def assembleFeed (pageSize : Nat)
    (cityRaw stateRaw countryRaw globalRaw : List Post) : List Post :=
  (assembleState pageSize cityRaw stateRaw countryRaw globalRaw).1.mergeSort feedLe

/-- Invariant of the accumulation state: every accepted post's id is in the
accepted-id set, and the accepted posts have pairwise distinct ids. -/
def FeedInv (st : List Post × List String) : Prop :=
  (∀ p ∈ st.1, p.id ∈ st.2) ∧ (st.1.map Post.id).Nodup

end FeelsApp

-- THEOREMS

namespace FeelsApp

/-- Claim C9: `likePost` is idempotent with respect to the like state: if the
post id is already in the local liked-posts set or the remote like document
already exists, the call performs no like-count increment, so the remote like
count is unchanged. -/
theorem likePost_idempotent (postId : String) (st : LikeState)
    (h : st.likeDoc = true ∨ postId ∈ st.likedPosts) :
    (likePost postId st).likes = st.likes := by
  rcases h with h | h
  · simp [likePost, h]
  · by_cases hd : st.likeDoc
    · simp [likePost, hd]
    · simp [likePost, hd, h]

/-- Witness for C9: a concrete duplicate like call leaves the count at 5. -/
theorem likePost_idempotent_witness :
    ((LikeState.mk true 5 ["p1"]).likeDoc = true ∨ "p1" ∈ (LikeState.mk true 5 ["p1"]).likedPosts) ∧
    (likePost "p1" (LikeState.mk true 5 ["p1"])).likes = 5 :=
  ⟨Or.inl rfl, likePost_idempotent "p1" (LikeState.mk true 5 ["p1"]) (Or.inl rfl)⟩

/-- Counterexample for C10 as stated: when the decrement fails and the
compensating `setDoc` also fails (its failure is swallowed by the inner
catch), `unlikePost` ends in an error while the like document for the
current identity no longer exists. -/
theorem unlikePost_error_without_likeDoc :
    (unlikePost "p1" (UnlikeEnv.mk true true false false)
        (LikeState.mk true 5 ["p1"])).1 = .error .network ∧
    (unlikePost "p1" (UnlikeEnv.mk true true false false)
        (LikeState.mk true 5 ["p1"])).2.likeDoc = false := by
  constructor <;> rfl

/-- Claim C10 (amended): if no like document exists, `unlikePost` performs no
remote mutation (the state is returned untouched); and provided the
compensating `setDoc` succeeds, every error exit of `unlikePost` leaves the
like document for the current identity in place.  (If the compensating write
itself fails, the error still propagates with the like document deleted.) -/
theorem unlikePost_atomic_on_error (postId : String) (env : UnlikeEnv)
    (st : LikeState) (hrev : env.revertOk = true) :
    (st.likeDoc = false → unlikePost postId env st = (.ok (), st)) ∧
    (∀ e : Err, (unlikePost postId env st).1 = .error e →
      (unlikePost postId env st).2.likeDoc = true) := by
  constructor
  · intro h
    simp [unlikePost, h]
  · intro e he
    by_cases hld : st.likeDoc
    · by_cases hpe : env.postExists
      · by_cases hdel : env.deleteOk
        · by_cases hdec : env.decOk
          · simp [unlikePost, hld, hpe, hdel, hdec] at he
          · simp [unlikePost, hld, hpe, hdel, hdec, hrev]
        · simp [unlikePost, hld, hpe, hdel]
      · simp [unlikePost, hld, hpe] at he
    · simp [unlikePost, hld] at he

/-- Witness for C10: the amended theorem applied at a concrete failing
decrement with a succeeding revert. -/
theorem unlikePost_atomic_on_error_witness :
    (UnlikeEnv.mk true true false true).revertOk = true ∧
    (((LikeState.mk true 5 ["p1"]).likeDoc = false →
        unlikePost "p1" (UnlikeEnv.mk true true false true) (LikeState.mk true 5 ["p1"]) =
          (.ok (), LikeState.mk true 5 ["p1"])) ∧
      (∀ e : Err,
        (unlikePost "p1" (UnlikeEnv.mk true true false true) (LikeState.mk true 5 ["p1"])).1 = .error e →
        (unlikePost "p1" (UnlikeEnv.mk true true false true) (LikeState.mk true 5 ["p1"])).2.likeDoc = true)) :=
  ⟨rfl, unlikePost_atomic_on_error "p1" (UnlikeEnv.mk true true false true)
    (LikeState.mk true 5 ["p1"]) rfl⟩

/-- Once an in-flight promise is published, every further call's synchronous
prefix joins that promise and leaves the module state unchanged. -/
theorem runCalls_inflight (p : Nat) :
    ∀ (n : Nat) (st : AuthModuleState), st.authPromise = some p →
      runCalls n st = (st, List.replicate n (CallRes.joined p)) := by
  intro n
  induction n with
  | zero => intro st h; rfl
  | succ m ih =>
    intro st h
    have hstep : getOrCreateStep st = (st, .joined p) := by
      simp [getOrCreateStep, h]
    simp [runCalls, hstep, ih st h, List.replicate_succ]

/-- Claim C4: for every set of concurrent `getOrCreateIdentity` calls issued
before any call resolves, exactly one identity-creation sequence executes
(`creations = 1`) and every call joins the same promise, hence resolves to
the same identifier. -/
theorem getOrCreate_single_flight (n : Nat) :
    (runCalls (n + 1) (AuthModuleState.mk none none 0 0)).1.creations = 1 ∧
    (runCalls (n + 1) (AuthModuleState.mk none none 0 0)).2 =
      List.replicate (n + 1) (CallRes.joined 0) ∧
    ∀ v : String,
      (runCalls (n + 1) (AuthModuleState.mk none none 0 0)).2.map (resolveRes v) =
        List.replicate (n + 1) v := by
  have hstep : getOrCreateStep (AuthModuleState.mk none none 0 0) =
      (AuthModuleState.mk (some 0) none 1 1, .joined 0) := rfl
  have hrest := runCalls_inflight 0 n (AuthModuleState.mk (some 0) none 1 1) rfl
  refine ⟨?_, ?_, ?_⟩
  · simp [runCalls, hstep, hrest]
  · simp [runCalls, hstep, hrest, List.replicate_succ]
  · intro v
    simp [runCalls, hstep, hrest, List.replicate_succ, resolveRes]

/-- Claim C5: `getOrCreateIdentity` is total: for every outcome of the
persistent store, the entropy source and the remote-auth session (including
failure of each), `createPersistentUserId`, `getOrCreatePersistentUserId`
and `getCurrentUserId` all return some identifier and never throw. -/
theorem getOrCreateIdentity_total (mem : Option String) (isInit : Bool)
    (env : IdEnv) :
    (∃ s, createPersistentUserId env = .ok s) ∧
    (∃ s, getOrCreatePersistentUserId mem env = .ok s) ∧
    (∃ s, getCurrentUserId mem isInit env = .ok s) := by
  have hc : ∀ e : IdEnv, ∃ s, createPersistentUserId e = .ok s := by
    intro e
    unfold createPersistentUserId
    cases h : (do
        let stored ← e.storedId
        match stored with
        | none =>
            let pid := "anon_" ++ generateUUID e
            let _ ← e.multiSetOk
            let _ ← ensureFirebaseAuth e.authEnv
            pure pid
        | some pid =>
            let ts ← e.storedTimestamp
            match ts with
            | none => do
                let _ ← e.setTimestampOk
                let _ ← ensureFirebaseAuth e.authEnv
                pure pid
            | some _ => do
                let _ ← ensureFirebaseAuth e.authEnv
                pure pid : Except Err String) with
    | ok pid => exact ⟨pid, rfl⟩
    | error er => exact ⟨"anon_fallback_" ++ toString e.now ++ "_" ++ e.rnd, rfl⟩
  have hg : ∃ s, getOrCreatePersistentUserId mem env = .ok s := by
    cases mem with
    | none => exact hc env
    | some pid => exact ⟨pid, rfl⟩
  refine ⟨hc env, hg, ?_⟩
  rcases hg with ⟨s, hs⟩
  cases mem with
  | none =>
      refine ⟨s, ?_⟩
      unfold getCurrentUserId
      simp only []
      rw [hs]
  | some pid =>
      cases isInit with
      | true => exact ⟨pid, rfl⟩
      | false =>
          refine ⟨s, ?_⟩
          unfold getCurrentUserId
          simp only []
          rw [hs]

/-- Claim C7 evidence (code bug): with a stored cached identity different
from the current one, `getConsistentUserId` never terminates, for any
recursion budget — it calls `clearAllCaches`, which calls
`getConsistentUserId` again before the cached key has been overwritten, and
so on; the cache clear (`multiRemove`) is never reached. -/
theorem identitySwitch_never_terminates (c currentUid : String)
    (h : c ≠ currentUid) :
    ∀ fuel,
      getConsistentUserIdFuel fuel (some c) currentUid = none ∧
      clearAllCachesFuel fuel (some c) currentUid = none := by
  intro fuel
  induction fuel with
  | zero => exact ⟨rfl, rfl⟩
  | succ n ih =>
    constructor
    · simp [getConsistentUserIdFuel, h, ih.2]
    · simp [clearAllCachesFuel, ih.1]

/-- Witness for C7: the divergence theorem applied at the concrete identity
switch from "A" to "B". -/
theorem identitySwitch_never_terminates_witness :
    "A" ≠ "B" ∧
    ∀ fuel,
      getConsistentUserIdFuel fuel (some "A") "B" = none ∧
      clearAllCachesFuel fuel (some "A") "B" = none :=
  ⟨by decide, identitySwitch_never_terminates "A" "B" (by decide)⟩

/-- `stepItem` never changes the item id. -/
theorem stepItem_fst_id (ok : SyncItem → Bool) (it : SyncItem) :
    ((stepItem ok it).1).id = it.id := by
  by_cases h : ok it <;> simp [stepItem, h]

/-- The processed mark of `stepItem`, as a Boolean formula. -/
theorem stepItem_snd (ok : SyncItem → Bool) (it : SyncItem) :
    (stepItem ok it).2 = (ok it || decide (3 ≤ it.retries + 1)) := by
  by_cases h : ok it <;> simp [stepItem, h]

/-- The processed-id list of a drain pass, unfolded. -/
theorem syncPass_snd_eq (ok : SyncItem → Bool) (queue : List SyncItem) :
    (syncPass ok queue).2 =
      ((queue.map (stepItem ok)).filter (fun s => s.2)).map (fun s => s.1.id) := rfl

/-- The persisted remaining queue of a drain pass, unfolded. -/
theorem syncPass_fst_eq (ok : SyncItem → Bool) (queue : List SyncItem) :
    (syncPass ok queue).1 =
      ((queue.map (stepItem ok)).map (fun s => s.1)).filter
        (fun it => !((syncPass ok queue).2.contains it.id)) := rfl

/-- With no duplicate ids in the queue, an item's id is in the processed set
of a drain pass exactly when its own step marked it processed. -/
theorem syncPass_mem_processed (ok : SyncItem → Bool) (queue : List SyncItem)
    (hnodup : (queue.map SyncItem.id).Nodup) (it : SyncItem) (hit : it ∈ queue) :
    it.id ∈ (syncPass ok queue).2 ↔ (stepItem ok it).2 = true := by
  rw [syncPass_snd_eq]
  constructor
  · intro h
    rcases List.mem_map.mp h with ⟨s, hsf, hid⟩
    have hs := List.mem_filter.mp hsf
    rcases List.mem_map.mp hs.1 with ⟨it'', hit'', rfl⟩
    have hid2 : it''.id = it.id := by
      rw [← stepItem_fst_id ok it'']; exact hid
    have heq : it'' = it :=
      List.inj_on_of_nodup_map hnodup hit'' hit hid2
    exact heq ▸ hs.2
  · intro hflag
    exact List.mem_map.mpr ⟨stepItem ok it,
      List.mem_filter.mpr ⟨List.mem_map_of_mem (stepItem ok) hit, hflag⟩,
      stepItem_fst_id ok it⟩

/-- With no duplicate ids, an item's id survives into the persisted
remaining queue exactly when its own step did not mark it processed. -/
theorem syncPass_mem_remaining (ok : SyncItem → Bool) (queue : List SyncItem)
    (hnodup : (queue.map SyncItem.id).Nodup) (it : SyncItem) (hit : it ∈ queue) :
    it.id ∈ (syncPass ok queue).1.map SyncItem.id ↔ (stepItem ok it).2 = false := by
  have hproc := syncPass_mem_processed ok queue hnodup it hit
  rw [syncPass_fst_eq]
  constructor
  · intro hmem
    rcases List.mem_map.mp hmem with ⟨x, hxf, hxid⟩
    have hx := List.mem_filter.mp hxf
    rcases List.mem_map.mp hx.1 with ⟨s, hsmem, rfl⟩
    rcases List.mem_map.mp hsmem with ⟨it'', hit'', rfl⟩
    have hid2 : it''.id = it.id := by
      rw [← stepItem_fst_id ok it'']; exact hxid
    have hnot : it.id ∉ (syncPass ok queue).2 := by
      have h2 := hx.2
      rw [stepItem_fst_id, hid2] at h2
      simpa using h2
    cases h : (stepItem ok it).2
    · rfl
    · exact absurd (hproc.mpr h) hnot
  · intro hflag
    have hnot : it.id ∉ (syncPass ok queue).2 := fun hmem => by
      simp [hproc.mp hmem] at hflag
    refine List.mem_map.mpr ⟨(stepItem ok it).1, ?_, stepItem_fst_id ok it⟩
    refine List.mem_filter.mpr
      ⟨List.mem_map_of_mem (fun s => s.1) (List.mem_map_of_mem (stepItem ok) hit), ?_⟩
    rw [stepItem_fst_id]
    simpa using hnot

/-- Counterexample for C1 as stated: the claim covers both cited drains, but
`FirebaseService.syncOfflineData` removes the whole `offline_queue` key after
a single pass: a queued create-post whose replay fails once is attempted
exactly once and is nevertheless absent from the persisted queue — dropped
before 3 failed attempts. -/
theorem offlineQueue_dropped_after_one_failure :
    (syncOfflineData (fun _ => false) [.post "hi" "sad" true 0]).storage = [] ∧
    (syncOfflineData (fun _ => false) [.post "hi" "sad" true 0]).attempted =
      [.post "hi" "sad" true 0] :=
  ⟨rfl, rfl⟩

/-- Claim C1 (amended, for the `OfflineSyncService` sync queue): in a drain
pass over a queue with distinct ids whose items all have at most 2 recorded
failures, an item is removed from the persisted queue iff its replay synced
successfully or it has `retries = 3` after this pass's failed attempt; and
every persisted item still has `retries ≤ 2`, so no item is ever around for
a 4th attempt.  (The `offline_queue` drained by
`FirebaseService.syncOfflineData` does not satisfy the claim, see the
counterexample.) -/
theorem syncQueue_bounded_retry (ok : SyncItem → Bool) (queue : List SyncItem)
    (hnodup : (queue.map SyncItem.id).Nodup)
    (hcap : ∀ it ∈ queue, it.retries ≤ 2) :
    (∀ it ∈ queue,
      (it.id ∉ (syncPass ok queue).1.map SyncItem.id ↔
        (ok it = true ∨ (ok it = false ∧ it.retries + 1 = 3)))) ∧
    (∀ it' ∈ (syncPass ok queue).1, it'.retries ≤ 2) := by
  constructor
  · intro it hit
    rw [syncPass_mem_remaining ok queue hnodup it hit]
    rw [stepItem_snd]
    have hle := hcap it hit
    rcases h : ok it with _ | _
    · constructor
      · intro hne
        simp only [h, Bool.false_or] at hne
        have h3 : 3 ≤ it.retries + 1 := by
          by_contra hlt
          simp [hlt] at hne
        exact Or.inr ⟨rfl, by omega⟩
      · rintro (hc | ⟨-, hc⟩)
        · exact absurd hc (by simp [h])
        · simp [h, hc]
    · simp [h]
  · intro it' hmem
    rw [syncPass_fst_eq] at hmem
    have hmem' := List.mem_filter.mp hmem
    rcases List.mem_map.mp hmem'.1 with ⟨s, hs, rfl⟩
    rcases List.mem_map.mp hs with ⟨it'', hit'', rfl⟩
    have hnotproc : (stepItem ok it'').1.id ∉ (syncPass ok queue).2 := by
      simpa using hmem'.2
    rw [stepItem_fst_id] at hnotproc
    have hflag : (stepItem ok it'').2 = false := by
      rcases h : (stepItem ok it'').2 with _ | _
      · rfl
      · exact absurd ((syncPass_mem_processed ok queue hnodup it'' hit'').mpr h) hnotproc
    rw [stepItem_snd] at hflag
    rcases h : ok it'' with _ | _
    · simp only [h, Bool.false_or, decide_eq_false_iff_not, not_le] at hflag
      simp [stepItem, h]
      omega
    · simp [h] at hflag

/-- Witness for C1 (amended): a two-item queue where the first replay
succeeds and the second fails for the third time; both are removed and the
persisted queue keeps the retry cap. -/
theorem syncQueue_bounded_retry_witness :
    (([SyncItem.mk "a" .post "d" 0 0, SyncItem.mk "b" .like "e" 1 2].map SyncItem.id).Nodup ∧
      ∀ it ∈ [SyncItem.mk "a" .post "d" 0 0, SyncItem.mk "b" .like "e" 1 2], it.retries ≤ 2) ∧
    ((∀ it ∈ [SyncItem.mk "a" .post "d" 0 0, SyncItem.mk "b" .like "e" 1 2],
      (it.id ∉ (syncPass (fun it => it.id == "a")
          [SyncItem.mk "a" .post "d" 0 0, SyncItem.mk "b" .like "e" 1 2]).1.map SyncItem.id ↔
        ((fun (it : SyncItem) => it.id == "a") it = true ∨
          ((fun (it : SyncItem) => it.id == "a") it = false ∧ it.retries + 1 = 3)))) ∧
    (∀ it' ∈ (syncPass (fun it => it.id == "a")
        [SyncItem.mk "a" .post "d" 0 0, SyncItem.mk "b" .like "e" 1 2]).1, it'.retries ≤ 2)) :=
  ⟨⟨by decide, by decide⟩,
    syncQueue_bounded_retry (fun it => it.id == "a")
      [SyncItem.mk "a" .post "d" 0 0, SyncItem.mk "b" .like "e" 1 2]
      (by decide) (by decide)⟩

/-- Claim C6 evidence (code bug): the drain snapshots `[A]`, item `B` is
enqueued mid-drain (storage momentarily holds `[A, B]`), `A`'s replay fails
(retries become 1), and the drain's final whole-list `setItem` persists only
the filtered snapshot: `B` is absent both from this drain's processed set
and from the persisted queue seen by the next drain — the enqueued operation
is lost, contradicting the claim's "still present in the persisted queue for
the next drain". -/
theorem midDrain_enqueue_lost :
    (drainWithMidEnqueue (fun _ => false) [SyncItem.mk "A" .post "d" 0 0]
        (SyncItem.mk "B" .mood "e" 1 0)).1 =
      [SyncItem.mk "A" .post "d" 0 0, SyncItem.mk "B" .mood "e" 1 0] ∧
    (drainWithMidEnqueue (fun _ => false) [SyncItem.mk "A" .post "d" 0 0]
        (SyncItem.mk "B" .mood "e" 1 0)).2 = [SyncItem.mk "A" .post "d" 0 1] ∧
    "B" ∉ ((drainWithMidEnqueue (fun _ => false) [SyncItem.mk "A" .post "d" 0 0]
        (SyncItem.mk "B" .mood "e" 1 0)).2.map SyncItem.id) ∧
    "B" ∉ (syncPass (fun _ => false) [SyncItem.mk "A" .post "d" 0 0]).2 := by
  refine ⟨rfl, by decide, by decide, by decide⟩

/-- Counterexample for C2 as stated: a `createPost` whose remote write fails
hands the operation to the offline queue but does not return success — the
failure is rethrown to the caller. -/
theorem createPost_failure_propagates :
    (createPost (WriteEnv.mk (.ok ()) "u1" (.error .network) (.ok ())) [] "hi" "sad" true 7).2 =
      [.post "hi" "sad" true 7] ∧
    ∀ s : String,
      (createPost (WriteEnv.mk (.ok ()) "u1" (.error .network) (.ok ())) [] "hi" "sad" true 7).1 ≠
        .ok s := by
  constructor
  · rfl
  · intro s h
    exact Except.noConfusion h

/-- Claim C2 (amended): for every create-post and create-mood write whose
remote write fails, the operation is handed to the offline queue (when the
queue's own storage write succeeds) and the failure is propagated: the call
throws the error instead of returning success. -/
theorem failedWrites_queue_and_throw (env : WriteEnv) (q : List OfflineOp)
    (text emotionTag mood : String) (openForChat : Bool) (intensity now : Nat)
    (notes : Option String) (e : Err)
    (hauth : env.authOk = .ok ()) (hadd : env.addDocResult = .error e)
    (hqw : env.queueWriteOk = .ok ()) :
    createPost env q text emotionTag openForChat now =
      (.error e, q ++ [.post text emotionTag openForChat now]) ∧
    addMoodEntry env q mood intensity notes now =
      (.error e, q ++ [.mood mood intensity notes now]) := by
  constructor
  · simp [createPost, hauth, hadd, hqw, Bind.bind, Except.bind]
  · simp [addMoodEntry, hauth, hadd, hqw, Bind.bind, Except.bind]

/-- Witness for C2: the amended theorem applied at a concrete failing remote
write. -/
theorem failedWrites_queue_and_throw_witness :
    (WriteEnv.mk (.ok ()) "u1" (.error .network) (.ok ())).authOk = .ok () ∧
    (WriteEnv.mk (.ok ()) "u1" (.error .network) (.ok ())).addDocResult = .error .network ∧
    (WriteEnv.mk (.ok ()) "u1" (.error .network) (.ok ())).queueWriteOk = .ok () ∧
    (createPost (WriteEnv.mk (.ok ()) "u1" (.error .network) (.ok ())) [] "t" "joy" false 3 =
        (.error .network, [.post "t" "joy" false 3]) ∧
      addMoodEntry (WriteEnv.mk (.ok ()) "u1" (.error .network) (.ok ())) [] "joy" 2 none 3 =
        (.error .network, [.mood "joy" 2 none 3])) :=
  ⟨rfl, rfl, rfl,
    failedWrites_queue_and_throw (WriteEnv.mk (.ok ()) "u1" (.error .network) (.ok ()))
      [] "t" "joy" "joy" false 2 3 none .network rfl rfl rfl⟩

/-- Claim C8: every read path (feed/global posts, own posts, mood entries)
returns an `ok` list for every outcome of its primitives — reads never throw
— and on a failing remote query each returns its cache-backed floor. -/
theorem reads_never_throw (pe : PostsReadEnv) (ue : UserReadEnv)
    (me : MoodReadEnv) :
    ((∃ l, getPosts pe = .ok l) ∧
      ∀ e : Err, pe.queryPosts = .error e → getPosts pe = .ok (getCachedPosts pe)) ∧
    ((∃ l, getUserPosts ue = .ok l) ∧
      ∀ e : Err, ue.queryUserPosts = .error e →
        getUserPosts ue = .ok (getCachedUserPosts ue)) ∧
    ((∃ l, getMoodEntries me = .ok l) ∧
      ∀ e : Err, me.queryMoods = .error e →
        getMoodEntries me = .ok (getCachedMoods me)) := by
  refine ⟨⟨?_, ?_⟩, ⟨?_, ?_⟩, ⟨?_, ?_⟩⟩
  · cases h : pe.queryPosts with
    | ok posts => exact ⟨posts.filter (fun p => !p.isDeleted), by simp [getPosts, h]⟩
    | error e => exact ⟨getCachedPosts pe, by simp [getPosts, h]⟩
  · intro e he
    simp [getPosts, he]
  · cases ha : ue.authOk with
    | error e => exact ⟨getCachedUserPosts ue, by simp [getUserPosts, ha]⟩
    | ok u =>
      cases h : ue.queryUserPosts with
      | ok posts =>
          exact ⟨posts.filter (fun p => !p.isDeleted), by simp [getUserPosts, ha, h]⟩
      | error e => exact ⟨getCachedUserPosts ue, by simp [getUserPosts, ha, h]⟩
  · intro e he
    cases ha : ue.authOk with
    | error e2 => simp [getUserPosts, ha]
    | ok u => simp [getUserPosts, ha, he]
  · cases ha : me.authOk with
    | error e => exact ⟨getCachedMoods me, by simp [getMoodEntries, ha]⟩
    | ok u =>
      cases ht : me.testQueryOk with
      | error e => exact ⟨getCachedMoods me, by simp [getMoodEntries, ha, ht]⟩
      | ok v =>
        cases h : me.queryMoods with
        | ok moods => exact ⟨moods, by simp [getMoodEntries, ha, ht, h]⟩
        | error e => exact ⟨getCachedMoods me, by simp [getMoodEntries, ha, ht, h]⟩
  · intro e he
    cases ha : me.authOk with
    | error e2 => simp [getMoodEntries, ha]
    | ok u =>
      cases ht : me.testQueryOk with
      | error e2 => simp [getMoodEntries, ha, ht]
      | ok v => simp [getMoodEntries, ha, ht, he]

/-- Witness for C8: the theorem applied at concrete environments whose
remote reads fail; each read returns its cached floor. -/
theorem reads_never_throw_witness :
    getPosts (PostsReadEnv.mk (.error .network) (.ok [])) =
      .ok (getCachedPosts (PostsReadEnv.mk (.error .network) (.ok []))) ∧
    getUserPosts (UserReadEnv.mk (.ok ()) "u" (.error .network) (.ok none) (.ok []) (.ok ())) =
      .ok (getCachedUserPosts
        (UserReadEnv.mk (.ok ()) "u" (.error .network) (.ok none) (.ok []) (.ok ()))) ∧
    getMoodEntries (MoodReadEnv.mk (.ok ()) (.ok ()) (.error .network) (.ok [])) =
      .ok (getCachedMoods (MoodReadEnv.mk (.ok ()) (.ok ()) (.error .network) (.ok []))) :=
  ⟨(reads_never_throw (PostsReadEnv.mk (.error .network) (.ok []))
      (UserReadEnv.mk (.ok ()) "u" (.error .network) (.ok none) (.ok []) (.ok ()))
      (MoodReadEnv.mk (.ok ()) (.ok ()) (.error .network) (.ok []))).1.2 .network rfl,
    (reads_never_throw (PostsReadEnv.mk (.error .network) (.ok []))
      (UserReadEnv.mk (.ok ()) "u" (.error .network) (.ok none) (.ok []) (.ok ()))
      (MoodReadEnv.mk (.ok ()) (.ok ()) (.error .network) (.ok []))).2.1.2 .network rfl,
    (reads_never_throw (PostsReadEnv.mk (.error .network) (.ok []))
      (UserReadEnv.mk (.ok ()) "u" (.error .network) (.ok none) (.ok []) (.ok ()))
      (MoodReadEnv.mk (.ok ()) (.ok ()) (.error .network) (.ok []))).2.2.2 .network rfl⟩

/-- A single dedup push grows the accepted list by at most one. -/
theorem pushPost_length_le (tag : Tier) (st : List Post × List String) (p : Post) :
    (pushPost tag st p).1.length ≤ st.1.length + 1 := by
  unfold pushPost
  split
  · omega
  · simp

/-- A tier push grows the accepted list by at most the tier list's length. -/
theorem pushTier_length_le (tag : Tier) (posts : List Post) :
    ∀ st : List Post × List String,
      (pushTier tag st posts).1.length ≤ st.1.length + posts.length := by
  induction posts with
  | nil => intro st; simp [pushTier]
  | cons q qs ih =>
      intro st
      have h1 := pushPost_length_le tag st q
      have h2 := ih (pushPost tag st q)
      simp only [pushTier, List.foldl_cons] at h2 ⊢
      simp only [List.length_cons]
      omega

/-- A tier push of a sliced list grows the accepted list by at most the
slice bound. -/
theorem pushTier_take_le (tag : Tier) (st : List Post × List String)
    (n : Nat) (l : List Post) :
    (pushTier tag st (l.take n)).1.length ≤ st.1.length + n := by
  have h1 := pushTier_length_le tag (l.take n) st
  have h2 : (l.take n).length ≤ n := by
    rw [List.length_take]
    omega
  omega

/-- A dedup push preserves the id invariant. -/
theorem pushPost_inv (tag : Tier) (st : List Post × List String) (p : Post)
    (h : FeedInv st) : FeedInv (pushPost tag st p) := by
  unfold pushPost
  by_cases hid : p.id ∈ st.2
  · simpa [hid] using h
  · rw [if_neg hid]
    constructor
    · intro q hq
      rcases List.mem_append.mp hq with hq | hq
      · exact List.mem_append.mpr (Or.inl (h.1 q hq))
      · have hq' : q = { p with locationPriority := some tag } := by simpa using hq
        subst hq'
        simp
    · rw [List.map_append]
      have hmap : List.map Post.id [{ p with locationPriority := some tag }] = [p.id] := by
        simp
      rw [hmap]
      refine h.2.append (List.nodup_singleton _) ?_
      intro a ha hb
      have ha' : a = p.id := by simpa using hb
      subst ha'
      rcases List.mem_map.mp ha with ⟨q, hq, hqid⟩
      exact hid (hqid ▸ h.1 q hq)

/-- A tier push preserves the id invariant. -/
theorem pushTier_inv (tag : Tier) (posts : List Post) :
    ∀ st : List Post × List String, FeedInv st → FeedInv (pushTier tag st posts) := by
  induction posts with
  | nil => intro st h; simpa [pushTier] using h
  | cons q qs ih =>
      intro st h
      simp only [pushTier, List.foldl_cons]
      exact ih (pushPost tag st q) (pushPost_inv tag st q h)

/-- The accumulated feed never exceeds the page size: the city, state and
country quotas sum below `pageSize` and the global tier requests exactly the
remainder. -/
theorem assembleState_length_le (pageSize : Nat)
    (cityRaw stateRaw countryRaw globalRaw : List Post) :
    (assembleState pageSize cityRaw stateRaw countryRaw globalRaw).1.length ≤ pageSize := by
  simp only [assembleState]
  set st1 := pushTier Tier.city ([], []) (cityRaw.take (pageSize * 6 / 10)) with hst1
  set st2 := (if 0 < pageSize * 25 / 100 then
      pushTier Tier.state st1 ((excludeFilter st1.2 stateRaw).take (pageSize * 25 / 100))
    else st1) with hst2
  set st3 := (if 0 < pageSize / 10 ∧ st2.1.length < pageSize then
      pushTier Tier.country st2 ((excludeFilter st2.2 countryRaw).take (pageSize / 10))
    else st2) with hst3
  have h1 : st1.1.length ≤ pageSize * 6 / 10 := by
    rw [hst1]
    have := pushTier_take_le Tier.city ([], []) (pageSize * 6 / 10) cityRaw
    simpa using this
  have h2 : st2.1.length ≤ st1.1.length + pageSize * 25 / 100 := by
    rw [hst2]
    split
    · exact pushTier_take_le Tier.state st1 (pageSize * 25 / 100) (excludeFilter st1.2 stateRaw)
    · omega
  have h3 : st3.1.length ≤ st2.1.length + pageSize / 10 := by
    rw [hst3]
    split
    · exact pushTier_take_le Tier.country st2 (pageSize / 10) (excludeFilter st2.2 countryRaw)
    · omega
  split
  · rename_i hlt
    have h4 := pushTier_take_le Tier.global st3 (pageSize - st3.1.length)
      ((excludeFilter st3.2 globalRaw).take (pageSize - st3.1.length + 5))
    omega
  · omega

/-- The accumulated feed satisfies the id invariant. -/
theorem assembleState_inv (pageSize : Nat)
    (cityRaw stateRaw countryRaw globalRaw : List Post) :
    FeedInv (assembleState pageSize cityRaw stateRaw countryRaw globalRaw) := by
  simp only [assembleState]
  set st1 := pushTier Tier.city ([], []) (cityRaw.take (pageSize * 6 / 10)) with hst1
  set st2 := (if 0 < pageSize * 25 / 100 then
      pushTier Tier.state st1 ((excludeFilter st1.2 stateRaw).take (pageSize * 25 / 100))
    else st1) with hst2
  set st3 := (if 0 < pageSize / 10 ∧ st2.1.length < pageSize then
      pushTier Tier.country st2 ((excludeFilter st2.2 countryRaw).take (pageSize / 10))
    else st2) with hst3
  have h0 : FeedInv ([], []) := by
    constructor
    · intro p hp
      exact absurd hp (List.not_mem_nil p)
    · simp [FeedInv]
  have h1 : FeedInv st1 := by
    rw [hst1]; exact pushTier_inv _ _ _ h0
  have h2 : FeedInv st2 := by
    rw [hst2]
    split
    · exact pushTier_inv _ _ _ h1
    · exact h1
  have h3 : FeedInv st3 := by
    rw [hst3]
    split
    · exact pushTier_inv _ _ _ h2
    · exact h2
  split
  · exact pushTier_inv _ _ _ h3
  · exact h3

/-- The sort comparator is transitive. -/
theorem feedLe_trans : ∀ a b c : Post,
    feedLe a b = true → feedLe b c = true → feedLe a c = true := by
  intro a b c hab hbc
  simp only [feedLe, Bool.or_eq_true, Bool.and_eq_true, decide_eq_true_eq,
    beq_iff_eq] at hab hbc ⊢
  omega

/-- The sort comparator is total. -/
theorem feedLe_total : ∀ a b : Post, (feedLe a b || feedLe b a) = true := by
  intro a b
  simp only [feedLe, Bool.or_eq_true, Bool.and_eq_true, decide_eq_true_eq,
    beq_iff_eq]
  omega

/-- What the comparator guarantees about an ordered pair: tier priority is
non-decreasing and timestamps are non-increasing within a tier. -/
theorem feedLe_imp (a b : Post) (h : feedLe a b = true) :
    prio a ≤ prio b ∧ (prio a = prio b → b.timestamp ≤ a.timestamp) := by
  simp only [feedLe, Bool.or_eq_true, Bool.and_eq_true, decide_eq_true_eq,
    beq_iff_eq] at h
  omega

/-- Claim C3: for every page size and every combination of tier query
results, the assembled feed has at most `pageSize` posts, no post id appears
twice, and every city-tier post precedes every state-tier post, which
precede country-tier posts, which precede global-tier posts (tier priority
non-decreasing along the list), with timestamps descending within each
tier. -/
theorem assembleFeed_props (pageSize : Nat)
    (cityRaw stateRaw countryRaw globalRaw : List Post) :
    (assembleFeed pageSize cityRaw stateRaw countryRaw globalRaw).length ≤ pageSize ∧
    ((assembleFeed pageSize cityRaw stateRaw countryRaw globalRaw).map Post.id).Nodup ∧
    (assembleFeed pageSize cityRaw stateRaw countryRaw globalRaw).Pairwise
      (fun a b => prio a ≤ prio b ∧ (prio a = prio b → b.timestamp ≤ a.timestamp)) := by
  have hperm : (assembleFeed pageSize cityRaw stateRaw countryRaw globalRaw).Perm
      (assembleState pageSize cityRaw stateRaw countryRaw globalRaw).1 :=
    List.mergeSort_perm _ feedLe
  refine ⟨?_, ?_, ?_⟩
  · rw [hperm.length_eq]
    exact assembleState_length_le pageSize cityRaw stateRaw countryRaw globalRaw
  · exact ((hperm.map Post.id).nodup_iff).mpr
      (assembleState_inv pageSize cityRaw stateRaw countryRaw globalRaw).2
  · have hsorted := List.sorted_mergeSort feedLe_trans feedLe_total
      (assembleState pageSize cityRaw stateRaw countryRaw globalRaw).1
    exact List.Pairwise.imp (fun hab => feedLe_imp _ _ hab) hsorted

end FeelsApp
